import Mathlib

/-!
Verification development for the pdns-backend-zookeeper repository
(src/pdns_zkns.py): a PowerDNS remote HTTP backend that answers DNS
queries from a ZooKeeper-backed service registry.

The Python source is shallowly embedded: strings are Lean `String`s
manipulated through models of the Python `str` methods used by the
code (`strip('.')`, `lower()`, `split('.')`, `split('.', 2)`,
`rpartition`, `endswith`, `join`, `int(...)`), the registry client is a
function from ZooKeeper paths to instance lists, and code that can
raise (`'.'.join` over a list containing an `int`, tuple unpacking of a
short list) is modelled in the `Except` monad.
-/

namespace Zkns

/-- Python `str.split(sep)` restricted to a single separator character,
on character lists: the empty input yields one empty field, and
adjacent separators yield empty fields. -/
def splitCh (sep : Char) : List Char → List (List Char)
  | [] => [[]]
  | c :: t =>
    if c = sep then [] :: splitCh sep t
    else
      match splitCh sep t with
      | h :: r => (c :: h) :: r
      | [] => [[c]]

/-- Python `sep.join(list_of_str)` (the always-successful, all-string
case). -/
def joinWith (sep : String) : List String → String
  | [] => ""
  | [x] => x
  | x :: t => x ++ sep ++ joinWith sep t

/-- Character-list version of `'.'.join`, used to model
`split('.', 2)` (the un-split remainder of the string). -/
def joinChars (sep : Char) : List (List Char) → List Char
  | [] => []
  | [x] => x
  | x :: t => x ++ sep :: joinChars sep t

/-- Python `str.strip('.')` on character lists: drop leading and
trailing dots. -/
def stripDotsChars (cs : List Char) : List Char :=
  List.rdropWhile (fun c => c = '.') (cs.dropWhile (fun c => c = '.'))

/-- Python `str.strip('.')`. -/
def pyStripDots (s : String) : String := ⟨stripDotsChars s.data⟩

/-- ASCII upper-case test (`'A'` .. `'Z'`), as in Python 2 `str`. -/
def isUpperAscii (c : Char) : Bool := decide (65 ≤ c.toNat ∧ c.toNat ≤ 90)

/-- Python 2 `str.lower()` on one character: map `'A'..'Z'` to
`'a'..'z'`, leave everything else unchanged. -/
def pyLowerChar (c : Char) : Char :=
  if 65 ≤ c.toNat ∧ c.toNat ≤ 90 then Char.ofNat (c.toNat + 32) else c

/-- Python 2 `str.lower()`. -/
def pyLower (s : String) : String := ⟨s.data.map pyLowerChar⟩

/-- `occursAt hay pat i` holds when `pat` occurs in `hay` starting at
index `i`. -/
def occursAt (hay pat : List Char) (i : Nat) : Bool :=
  (hay.drop i).take pat.length == pat

/-- Index of the last occurrence of `pat` in `hay`, if any. -/
def lastOcc (hay pat : List Char) : Option Nat :=
  ((List.range (hay.length + 1)).filter (occursAt hay pat)).getLast?

/-- First component of Python `s.rpartition(sep)`: the part of `s`
before the last occurrence of `sep`, or `""` when `sep` does not occur
(Python puts the whole string in the THIRD slot in that case). -/
def pyRPartitionFst (s sep : String) : String :=
  match lastOcc s.data sep.data with
  | some i => ⟨s.data.take i⟩
  | none => ""

/-- Python whitespace, as stripped by `int(str)`. -/
def isPyWs (c : Char) : Bool :=
  c = ' ' || c = '\t' || c = '\n' || c = '\r' || c = '\x0b' || c = '\x0c'

/-- Strip leading and trailing whitespace (for the `int(...)` model). -/
def trimWs (cs : List Char) : List Char :=
  ((cs.dropWhile isPyWs).reverse.dropWhile isPyWs).reverse

/-- Value of a non-empty list of decimal digits. -/
def digitsVal (ds : List Char) : Nat :=
  ds.foldl (fun n c => 10 * n + (c.toNat - 48)) 0

/-- Python 2 `int(s)`: optional surrounding whitespace, an optional
sign, then one or more decimal digits; `none` models the
`ValueError`. -/
def pyInt (s : String) : Option Int :=
  match trimWs s.data with
  | '-' :: ds =>
    if ds ≠ [] ∧ ds.all Char.isDigit then some (-(digitsVal ds : Int)) else none
  | '+' :: ds =>
    if ds ≠ [] ∧ ds.all Char.isDigit then some ((digitsVal ds : Int)) else none
  | ds =>
    if ds ≠ [] ∧ ds.all Char.isDigit then some ((digitsVal ds : Int)) else none

/-- Python `s.split('.')`. -/
def pySplitDot (s : String) : List String :=
  (splitCh '.' s.data).map (fun cs => (⟨cs⟩ : String))

/-- Python `s.split('.', 2)`: at most two splits, the remainder stays
joined. -/
def pySplit2Dot (s : String) : List String :=
  match splitCh '.' s.data with
  | a :: b :: c :: rest => [⟨a⟩, ⟨b⟩, ⟨joinChars '.' (c :: rest)⟩]
  | l => l.map (fun cs => (⟨cs⟩ : String))

/-- Python `s[1:]`. -/
def strTail (s : String) : String := ⟨s.data.tail⟩

/-- Python `s.startswith('_')`. -/
def startsUnderscore (s : String) : Bool :=
  match s.data with
  | '_' :: _ => true
  | _ => false

/-- Python `s.endswith(t)`. -/
def pyEndsWith (s t : String) : Bool :=
  t.data == s.data.drop (s.data.length - t.data.length)

/-- The Python exceptions the embedded code can raise. -/
inductive PyErr where
  | typeError
  | valueError
deriving DecidableEq, Repr

/-- A Python value appearing in a `join`ed list: the source passes both
strings and ints to `'.'.join` / `' '.join`. -/
inductive PyVal where
  | str (s : String)
  | int (n : Int)
deriving DecidableEq, Repr

/-- Extract the strings of a joined list; `none` when some element is
an `int` (which makes Python's `str.join` raise `TypeError`). -/
def allStrs : List PyVal → Option (List String)
  | [] => some []
  | PyVal.str s :: t => (allStrs t).map (fun l => s :: l)
  | PyVal.int _ :: _ => none

/-- Python `sep.join(items)` over mixed values: raises `TypeError` as
soon as a non-string element is present. -/
def pyJoin (sep : String) (items : List PyVal) : Except PyErr String :=
  match allStrs items with
  | some ss => Except.ok (joinWith sep ss)
  | none => Except.error PyErr.typeError

/-- A service endpoint of a registry instance (`host`, `port`). -/
structure Endpoint where
  host : String
  port : Int
deriving DecidableEq, Repr

/-- A serverset instance as decoded from the registry: a primary
endpoint, named additional endpoints, and an optional integer shard. -/
structure Instance where
  service_endpoint : Endpoint
  additional_endpoints : List (String × Endpoint)
  shard : Option Int
deriving DecidableEq, Repr

/-- Python `dict.get` on the `additional_endpoints` mapping. -/
def epGet (l : List (String × Endpoint)) (k : String) : Option Endpoint :=
  (l.find? (fun p => p.1 == k)).map (fun p => p.2)

/-- `SOAData` from the source: the static SOA record fields. -/
structure SOAData where
  ttl : Int
  ns1 : String
  email : String
  refresh : Int
  retry : Int
  expire : Int
  nxdomain_ttl : Int
deriving DecidableEq, Repr

/-- `SOAData.__str__`: `"{ns1} {email} {refresh} 1 {retry} {expire}
{nxdomain_ttl}"`. -/
def SOAData.str (d : SOAData) : String :=
  d.ns1 ++ " " ++ d.email ++ " " ++ toString d.refresh ++ " 1 " ++
    toString d.retry ++ " " ++ toString d.expire ++ " " ++ toString d.nxdomain_ttl

/-- A PowerDNS answer record, the dict built by the `*_response`
helpers. -/
structure DnsRecord where
  qtype : String
  qname : String
  ttl : Int
  content : String
deriving DecidableEq, Repr

/-- `a_response` from the source. -/
def a_response (qname ip_addr : String) (ttl : Int) : DnsRecord :=
  { qtype := "A", qname := qname, ttl := ttl, content := ip_addr }

/-- `ns_response` from the source. -/
def ns_response (qname target : String) (ttl : Int) : DnsRecord :=
  { qtype := "NS", qname := qname, ttl := ttl, content := target }

/-- `soa_response` from the source. -/
def soa_response (domain : String) (ttl : Int) (content : String) : DnsRecord :=
  { qtype := "SOA", qname := domain, ttl := ttl, content := content }

/-- `srv_response` from the source.  Note: the dict's `qtype` is
literally `"SOA"`, and the content is `' '.join` over a list that
contains the ints `ttl`, `priority`, `weight` and `port`, so building
the record raises `TypeError` in Python. -/
def srv_response (srv_name target : String) (port ttl priority weight : Int) :
    Except PyErr DnsRecord := do
  let content ← pyJoin " "
    [PyVal.str srv_name, PyVal.int ttl, PyVal.str "IN SRV",
     PyVal.int priority, PyVal.int weight, PyVal.int port, PyVal.str target]
  Except.ok { qtype := "SOA", qname := srv_name, ttl := ttl, content := content }

/-- One merging step of the `while` loop in `construct_paths` (on a
list of at least two components `a :: b :: t`), bundled with the fact
that it shortens the list by one, which the termination argument of
`pathLoop` needs. -/
def mergeLastS (a b : String) (t : List String) :
    { l : List String // l.length = t.length + 1 } :=
  match t with
  | [] => ⟨[b ++ "." ++ a], rfl⟩
  | c :: t' =>
    ⟨a :: (mergeLastS b c t').val, by
      rw [List.length_cons, (mergeLastS b c t').property, List.length_cons]⟩

/-- One merging step of the `while` loop in `construct_paths`:
`elem = '.'.join([path_components.pop(), path_components.pop()]);
path_components.append(elem)` — the last element absorbs the previous
one, dotted, e.g. `['a', 'b', 'c', 'f.e.d'] → ['a', 'b', 'f.e.d.c']`. -/
def mergeLast (l : List String) : List String :=
  match l with
  | a :: b :: t => (mergeLastS a b t).val
  | l => l

/-- The `while path_components:` loop of `construct_paths`, recursing
structurally on a fuel argument so that it computes definitionally.
Each iteration shortens the component list by exactly one, so calling
it with `fuel = l.length` (as `pathLoop` does) never reaches the
fuel-exhausted case. -/
def pathLoopF (shard : Option Int) : Nat → List String → List (String × Option Int)
  | _, [] => []
  | _, [x] => [(joinWith "/" [x], shard)]
  | 0, _ :: _ :: _ => []
  | fuel + 1, a :: b :: t =>
    (joinWith "/" (a :: b :: t), shard) ::
      pathLoopF shard fuel (mergeLast (a :: b :: t))

/-- The `while path_components:` loop of `construct_paths`: yield the
`'/'`-joined components with the shard, stop after a single component,
otherwise merge the last two components and repeat. -/
def pathLoop (shard : Option Int) (l : List String) : List (String × Option Int) :=
  pathLoopF shard l.length l

/-- Shard extraction in `construct_paths`: `try: shard =
int(path_components[-1]); path_components = path_components[:-1]
except ValueError: shard = None`. -/
def shardExtract (pcs : List String) : List String × Option Int :=
  match pcs.getLast? with
  | none => (pcs, none)
  | some lastC =>
    match pyInt lastC with
    | some n => (pcs.dropLast, some n)
    | none => (pcs, none)

/-- The `qrec` local of `construct_paths`: strip surrounding dots, and
when `basedomain` is truthy keep the part before its last occurrence
(`rpartition`).  An absent `basedomain` is modelled as `""` (both are
falsy in Python). -/
def cpQrec (hostname basedomain : String) : String :=
  if basedomain ≠ "" then pyRPartitionFst (pyStripDots hostname) basedomain
  else pyStripDots hostname

/-- The `path_components` local of `construct_paths`:
`list(reversed(qrec.strip('.').split('.')))`. -/
def cpComponents (hostname basedomain : String) : List String :=
  (pySplitDot (pyStripDots (cpQrec hostname basedomain))).reverse

/-- `construct_paths` from the source: candidate `(zkpath, shard)`
pairs for a hostname. -/
def construct_paths (hostname basedomain : String) : List (String × Option Int) :=
  pathLoop (shardExtract (cpComponents hostname basedomain)).2
    (shardExtract (cpComponents hostname basedomain)).1

/-- `ZknsServer` state after `__init__`.  `zkclient` models
`list(serverset.ServerSet(self.zkclient, zkpath))`: the instances the
registry currently holds under each path (a missing path is the empty
list). -/
structure ZknsServer where
  zkclient : String → List Instance
  domain : String
  soa_data : SOAData
  ttl : Int

/-- `ZknsServer.__init__`: the one computation it performs on its
configuration is `self.domain = domain.strip('.')` — no lowercasing. -/
def ZknsServer.init (zk_handle : String → List Instance) (domain : String)
    (ttl : Int) (soa_data : SOAData) : ZknsServer :=
  { zkclient := zk_handle, domain := pyStripDots domain,
    soa_data := soa_data, ttl := ttl }

/-- The candidate walk inside `resolve_hostname`: skip empty serversets;
with no shard the first non-empty set wins; with a shard, return the
FIRST instance whose shard matches as a singleton, else continue. -/
def resolveGo (srv : ZknsServer) : List (String × Option Int) → List Instance
  | [] => []
  | (zkpath, shard) :: rest =>
    if (srv.zkclient zkpath).isEmpty then resolveGo srv rest
    else
      match shard with
      | none => srv.zkclient zkpath
      | some sh =>
        match (srv.zkclient zkpath).find? (fun i => i.shard == some sh) with
        | some inst => [inst]
        | none => resolveGo srv rest

/-- `ZknsServer.resolve_hostname`. -/
def ZknsServer.resolve_hostname (srv : ZknsServer) (hostname : String) :
    List Instance :=
  resolveGo srv (construct_paths hostname srv.domain)

/-- `ZknsServer.a_lookup`: one A record per resolved instance. -/
def ZknsServer.a_lookup (srv : ZknsServer) (qname : String) : List DnsRecord :=
  (srv.resolve_hostname qname).map
    (fun x => a_response qname x.service_endpoint.host srv.ttl)

/-- `ZknsServer.ns_lookup`: a single NS record when
`qname.lower().strip('.') == self.domain`. -/
def ZknsServer.ns_lookup (srv : ZknsServer) (qname : String) : List DnsRecord :=
  if pyStripDots (pyLower qname) = srv.domain then
    [ns_response qname srv.soa_data.ns1 srv.ttl]
  else []

/-- `ZknsServer.soa_lookup`: a single SOA record when
`qname.lower().strip('.').endswith(self.domain)`. -/
def ZknsServer.soa_lookup (srv : ZknsServer) (qname : String) : List DnsRecord :=
  if pyEndsWith (pyStripDots (pyLower qname)) srv.domain then
    [soa_response srv.domain srv.soa_data.ttl srv.soa_data.str]
  else []

/-- The `for instance in instances:` loop of `srv_lookup`.  A falsy
shard (`None` or `0`) is skipped; for a truthy shard the code computes
`shard_a = '.'.join([instance.shard, a_name])` — `instance.shard` is an
int, so the join raises `TypeError` — and only then looks up the
additional endpoint and yields `srv_response`. -/
def srvLoop (qname a_name service : String) (ttl : Int) :
    List Instance → Except PyErr (List DnsRecord)
  | [] => Except.ok []
  | inst :: rest =>
    match inst.shard with
    | none => srvLoop qname a_name service ttl rest
    | some n =>
      if n = 0 then srvLoop qname a_name service ttl rest
      else do
        let shard_a ← pyJoin "." [PyVal.int n, PyVal.str a_name]
        match epGet inst.additional_endpoints service with
        | some endpoint => do
          let r ← srv_response qname shard_a endpoint.port ttl 0 0
          let more ← srvLoop qname a_name service ttl rest
          Except.ok (r :: more)
        | none => srvLoop qname a_name service ttl rest

/-- `ZknsServer.srv_lookup`: `_service, _proto, a_name =
qname.lower().split('.', 2)` (raising `ValueError` when the split has
fewer than three parts), the `_service`/`_proto` shape check, and the
instance loop. -/
def ZknsServer.srv_lookup (srv : ZknsServer) (qname : String) :
    Except PyErr (List DnsRecord) :=
  match pySplit2Dot (pyLower qname) with
  | [_service, _proto, a_name] =>
    if startsUnderscore _service && (_proto == "_tcp" || _proto == "_udp") then
      srvLoop qname a_name (strTail _service) srv.ttl (srv.resolve_hostname a_name)
    else Except.ok []
  | _ => Except.error PyErr.valueError

/-- The JSON `result` field of a response envelope: an array of
records, or the literal boolean `false`. -/
inductive DnsResult where
  | records (rs : List DnsRecord)
  | boolFalse
deriving DecidableEq, Repr

/-- The response envelope `{'result': ...}`. -/
structure DnsResponse where
  result : DnsResult
deriving DecidableEq, Repr

/-- What `dnsapi_lookup` passes to `dnsresponse`: either a generator
(whose materialization by `list(...)` can raise) or the literal
`False`. -/
inductive LookupData where
  | gen (g : Except PyErr (List DnsRecord))
  | lit (b : Bool)

/-- `dnsresponse` from the source: `{'result': list(data or [])}`.  A
generator object is always truthy, so `list(data)` materializes it
(propagating any exception); `False` is falsy, so `False or []` is `[]`
and the result field is the EMPTY ARRAY — the literal `false` is never
emitted. -/
def dnsresponse : LookupData → Except PyErr DnsResponse
  | LookupData.gen g => g.map (fun l => { result := DnsResult.records l })
  | LookupData.lit _ => Except.ok { result := DnsResult.records [] }

/-- `ZknsServer.dnsapi_lookup`: dispatch on `qtype`; `ANY` chains the
A, NS, SOA and SRV generators in that order. -/
def ZknsServer.dnsapi_lookup (srv : ZknsServer) (qname qtype : String) :
    Except PyErr DnsResponse :=
  if qtype = "ANY" then
    dnsresponse (LookupData.gen ((srv.srv_lookup qname).map
      (fun v => srv.a_lookup qname ++ srv.ns_lookup qname ++
        srv.soa_lookup qname ++ v)))
  else if qtype = "A" then
    dnsresponse (LookupData.gen (Except.ok (srv.a_lookup qname)))
  else if qtype = "NS" then
    dnsresponse (LookupData.gen (Except.ok (srv.ns_lookup qname)))
  else if qtype = "SOA" then
    dnsresponse (LookupData.gen (Except.ok (srv.soa_lookup qname)))
  else if qtype = "SRV" then
    dnsresponse (LookupData.gen (srv.srv_lookup qname))
  else
    dnsresponse (LookupData.lit false)

/-- The spec's well-formedness predicate on an emitted registry path:
non-empty, and splitting it on `'/'` yields no empty segment (so no
leading or trailing `'/'` and no `"//"`). -/
def goodPath (p : String) : Bool :=
  !p.data.isEmpty && (splitCh '/' p.data).all (fun seg => !seg.isEmpty)

/-- A sample SOA configuration used by the concrete test servers. -/
def soaEx : SOAData :=
  ⟨300, "ns1.example.com", "root.zk.example.com", 1200, 180, 86400, 60⟩

/-- A sample additional endpoint named by the `http` service. -/
def epHttp : Endpoint := ⟨"10.0.0.3", 8080⟩

/-- A registry with no instances at all. -/
def regEmpty : String → List Instance := fun _ => []

/-- A server over the empty registry, domain `zk.example.com`. -/
def srvEmpty : ZknsServer := ZknsServer.init regEmpty "zk.example.com" 60 soaEx

/-- An instance with shard 1 and an `http` additional endpoint. -/
def instSh1 : Instance := ⟨⟨"10.0.0.1", 31337⟩, [("http", epHttp)], some 1⟩

/-- A registry holding `instSh1` under the path `job`. -/
def regSh1 : String → List Instance := fun p => if p = "job" then [instSh1] else []

/-- A server over `regSh1`, domain `zk.example.com`. -/
def srvSh1 : ZknsServer := ZknsServer.init regSh1 "zk.example.com" 60 soaEx

/-- An instance with shard 0 and an `http` additional endpoint. -/
def instSh0 : Instance := ⟨⟨"10.0.0.1", 31337⟩, [("http", epHttp)], some 0⟩

/-- A registry holding `instSh0` under the path `job`. -/
def regSh0 : String → List Instance := fun p => if p = "job" then [instSh0] else []

/-- A server over `regSh0`, domain `zk.example.com`. -/
def srvSh0 : ZknsServer := ZknsServer.init regSh0 "zk.example.com" 60 soaEx

/-- First of two shard-0 instances registered under the same path. -/
def instA : Instance := ⟨⟨"10.0.0.1", 31337⟩, [], some 0⟩

/-- Second of two shard-0 instances registered under the same path. -/
def instB : Instance := ⟨⟨"10.0.0.2", 31337⟩, [], some 0⟩

/-- A registry holding both `instA` and `instB` under the path `job`. -/
def regAB : String → List Instance := fun p => if p = "job" then [instA, instB] else []

/-- A server over `regAB`, domain `zk.example.com`. -/
def srvAB : ZknsServer := ZknsServer.init regAB "zk.example.com" 60 soaEx

/-! ### Helper lemmas about the Python string models -/

theorem mem_of_mem_dropWhile {α : Type} {p : α → Bool} {x : α} :
    ∀ {l : List α}, x ∈ l.dropWhile p → x ∈ l
  | [], h => h
  | a :: t, h => by
    rw [List.dropWhile_cons] at h
    split at h
    · exact List.mem_cons_of_mem a (mem_of_mem_dropWhile h)
    · exact h

theorem mem_dropWhile_of_mem {α : Type} {p : α → Bool} {x : α} (hpx : p x = false) :
    ∀ {l : List α}, x ∈ l → x ∈ l.dropWhile p
  | [], h => absurd h (List.not_mem_nil x)
  | a :: t, h => by
    rw [List.dropWhile_cons]
    split
    · rename_i hpa
      rcases List.mem_cons.mp h with rfl | ht
      · rw [hpx] at hpa; cases hpa
      · exact mem_dropWhile_of_mem hpx ht
    · exact h

theorem mem_of_mem_rdropWhile {α : Type} {p : α → Bool} {x : α} {l : List α}
    (h : x ∈ l.rdropWhile p) : x ∈ l := by
  rw [List.rdropWhile, List.mem_reverse] at h
  have h2 := mem_of_mem_dropWhile h
  rwa [List.mem_reverse] at h2

theorem mem_rdropWhile_of_mem {α : Type} {p : α → Bool} {x : α} {l : List α}
    (hpx : p x = false) (h : x ∈ l) : x ∈ l.rdropWhile p := by
  rw [List.rdropWhile, List.mem_reverse]
  exact mem_dropWhile_of_mem hpx (List.mem_reverse.mpr h)

theorem mem_of_mem_stripDots {x : Char} {cs : List Char}
    (h : x ∈ stripDotsChars cs) : x ∈ cs :=
  mem_of_mem_dropWhile (mem_of_mem_rdropWhile h)

theorem mem_stripDots_of_mem {x : Char} {cs : List Char} (hx : x ∈ cs)
    (hnd : ¬ x = '.') : x ∈ stripDotsChars cs :=
  mem_rdropWhile_of_mem (by simpa using hnd)
    (mem_dropWhile_of_mem (by simpa using hnd) hx)

theorem stripDots_idem (cs : List Char) :
    stripDotsChars (stripDotsChars cs) = stripDotsChars cs := by
  unfold stripDotsChars
  have hdw :
      (List.rdropWhile (fun c => c = '.') (cs.dropWhile (fun c => c = '.'))).dropWhile
          (fun c => c = '.') =
        List.rdropWhile (fun c => c = '.') (cs.dropWhile (fun c => c = '.')) := by
    obtain ⟨t, ht⟩ :=
      List.rdropWhile_prefix (fun c => c = '.') (cs.dropWhile (fun c => c = '.'))
    cases hr :
        List.rdropWhile (fun c => c = '.') (cs.dropWhile (fun c => c = '.')) with
    | nil => rfl
    | cons a r =>
      rw [hr] at ht
      have hy : (cs.dropWhile (fun c => c = '.')).dropWhile (fun c => c = '.') =
          cs.dropWhile (fun c => c = '.') :=
        List.dropWhile_idempotent _ cs
      rw [← ht, List.cons_append, List.dropWhile_cons] at hy
      split at hy
      · exfalso
        have hlen := congrArg List.length hy
        have hle : ((r ++ t).dropWhile (fun c => c = '.')).length ≤ (r ++ t).length :=
          (List.dropWhile_sublist _).length_le
        simp only [List.length_cons] at hlen
        omega
      · rename_i hpa
        rw [List.dropWhile_cons, if_neg hpa]
  rw [hdw]
  exact List.rdropWhile_idempotent _ _

theorem pyStripDots_idem (s : String) :
    pyStripDots (pyStripDots s) = pyStripDots s :=
  congrArg String.mk (stripDots_idem s.data)

theorem toNat_ofNat_valid (n : Nat) (h : n < 55296) : (Char.ofNat n).toNat = n := by
  have hv : n.isValidChar := Or.inl h
  simp only [Char.ofNat, hv, dif_pos]
  rfl

theorem lower_not_upper (c : Char) : isUpperAscii (pyLowerChar c) = false := by
  unfold pyLowerChar isUpperAscii
  split
  · rename_i h
    rw [toNat_ofNat_valid (c.toNat + 32) (by omega)]
    simp only [decide_eq_false_iff_not, not_and]
    omega
  · rename_i h
    simp only [decide_eq_false_iff_not, not_and]
    omega

theorem no_upper_in_lower_strip (s : String) {c : Char}
    (h : c ∈ (pyStripDots (pyLower s)).data) : isUpperAscii c = false := by
  have h1 : c ∈ (pyLower s).data := mem_of_mem_stripDots h
  have h2 : c ∈ s.data.map pyLowerChar := h1
  obtain ⟨d, _, rfl⟩ := List.mem_map.mp h2
  exact lower_not_upper d

theorem strData_append (a b : String) : (a ++ b).data = a.data ++ b.data := by
  cases a
  cases b
  rfl

theorem splitCh_no_sep {sep : Char} : ∀ {cs : List Char}, sep ∉ cs →
    splitCh sep cs = [cs]
  | [], _ => rfl
  | c :: t, h => by
    have hcs : ¬ c = sep := by
      intro he
      exact h (by rw [he]; exact List.mem_cons_self sep t)
    have ih := splitCh_no_sep (fun m => h (List.mem_cons_of_mem c m))
    simp [splitCh, hcs, ih]

theorem splitCh_sep_append (sep : Char) : ∀ (as bs : List Char), sep ∉ as →
    splitCh sep (as ++ sep :: bs) = as :: splitCh sep bs
  | [], bs, _ => by simp [splitCh]
  | a :: t, bs, h => by
    have has : ¬ a = sep := by
      intro he
      exact h (by rw [he]; exact List.mem_cons_self sep t)
    have ih := splitCh_sep_append sep t bs (fun m => h (List.mem_cons_of_mem a m))
    simp [splitCh, has, ih]

theorem joinWith_data_cons (x y : String) (t : List String) :
    (joinWith "/" (x :: y :: t)).data = x.data ++ '/' :: (joinWith "/" (y :: t)).data := by
  show (x ++ "/" ++ joinWith "/" (y :: t)).data = _
  rw [strData_append, strData_append]
  simp

theorem splitCh_joinWith : ∀ (l : List String), l ≠ [] →
    (∀ x ∈ l, '/' ∉ x.data) →
    splitCh '/' (joinWith "/" l).data = l.map String.data
  | [], hne, _ => absurd rfl hne
  | [x], _, h => by
    show splitCh '/' x.data = [x.data]
    exact splitCh_no_sep (h x (List.mem_cons_self x []))
  | x :: y :: t, _, h => by
    rw [joinWith_data_cons]
    rw [splitCh_sep_append '/' x.data _ (h x (List.mem_cons_self x (y :: t)))]
    rw [splitCh_joinWith (y :: t) (by simp)
      (fun z hz => h z (List.mem_cons_of_mem x hz))]
    rfl

theorem goodPath_joinWith (l : List String) (hne : l ≠ [])
    (h : ∀ x ∈ l, x.data ≠ [] ∧ '/' ∉ x.data) :
    goodPath (joinWith "/" l) = true := by
  unfold goodPath
  rw [splitCh_joinWith l hne (fun x hx => (h x hx).2), Bool.and_eq_true]
  refine ⟨?_, ?_⟩
  · cases l with
    | nil => exact absurd rfl hne
    | cons x t =>
      cases t with
      | nil =>
        have hx1 := (h x (List.mem_cons_self x [])).1
        show (!x.data.isEmpty) = true
        simpa using hx1
      | cons y t' =>
        rw [joinWith_data_cons]
        simp
  · rw [List.all_eq_true]
    intro seg hseg
    obtain ⟨x, hx, rfl⟩ := List.mem_map.mp hseg
    simpa using (h x hx).1

theorem mergeLast_two (a b : String) : mergeLast [a, b] = [b ++ "." ++ a] := rfl

theorem mergeLast_cons (a b c : String) (t : List String) :
    mergeLast (a :: b :: c :: t) = a :: mergeLast (b :: c :: t) := rfl

theorem mergeLast_length (a b : String) (t : List String) :
    (mergeLast (a :: b :: t)).length = t.length + 1 := (mergeLastS a b t).property

theorem dotMerge_keeps (y z : String) (hy : y.data ≠ [] ∧ '/' ∉ y.data)
    (hz : z.data ≠ [] ∧ '/' ∉ z.data) :
    (z ++ "." ++ y).data ≠ [] ∧ '/' ∉ (z ++ "." ++ y).data := by
  rw [strData_append, strData_append]
  have hdot : ("." : String).data = ['.'] := rfl
  rw [hdot]
  constructor
  · simp
  · simp only [List.mem_append, List.mem_singleton, not_or]
    exact ⟨⟨hz.2, by decide⟩, hy.2⟩

theorem mem_mergeLast : ∀ (l : List String),
    (∀ x ∈ l, x.data ≠ [] ∧ '/' ∉ x.data) →
    ∀ x ∈ mergeLast l, x.data ≠ [] ∧ '/' ∉ x.data
  | [], h => by simp [mergeLast]
  | [x], h => by simpa [mergeLast] using h
  | [y, z], h => by
    rw [mergeLast_two]
    intro x hx
    rw [List.mem_singleton] at hx
    subst hx
    exact dotMerge_keeps y z (h y (by simp)) (h z (by simp))
  | a :: b :: c :: t, h => by
    rw [mergeLast_cons]
    intro x hx
    rcases List.mem_cons.mp hx with rfl | hx2
    · exact h x (List.mem_cons_self x _)
    · exact mem_mergeLast (b :: c :: t)
        (fun w hw => h w (List.mem_cons_of_mem a hw)) x hx2

theorem pathLoop_single (shard : Option Int) (x : String) :
    pathLoop shard [x] = [(joinWith "/" [x], shard)] := rfl

theorem pathLoop_cons2 (shard : Option Int) (a b : String) (t : List String) :
    pathLoop shard (a :: b :: t) =
      (joinWith "/" (a :: b :: t), shard) ::
        pathLoop shard (mergeLast (a :: b :: t)) := by
  unfold pathLoop
  rw [mergeLast_length]
  rfl

theorem pathLoop_shard (shard : Option Int) : ∀ (l : List String)
    (ps : String × Option Int), ps ∈ pathLoop shard l → ps.2 = shard
  | [], ps, h => by simp [pathLoop, pathLoopF] at h
  | [x], ps, h => by
    rw [pathLoop_single, List.mem_singleton] at h
    rw [h]
  | a :: b :: t, ps, h => by
    rw [pathLoop_cons2] at h
    rcases List.mem_cons.mp h with rfl | h2
    · rfl
    · exact pathLoop_shard shard (mergeLast (a :: b :: t)) ps h2
termination_by l => l.length
decreasing_by rw [mergeLast_length]; simp

theorem pathLoop_good (shard : Option Int) : ∀ (l : List String),
    (∀ x ∈ l, x.data ≠ [] ∧ '/' ∉ x.data) →
    ∀ ps ∈ pathLoop shard l, goodPath ps.1 = true
  | [], _, ps, h => by simp [pathLoop, pathLoopF] at h
  | [x], hx, ps, h => by
    rw [pathLoop_single, List.mem_singleton] at h
    rw [h]
    exact goodPath_joinWith [x] (by simp) hx
  | a :: b :: t, hx, ps, h => by
    rw [pathLoop_cons2] at h
    rcases List.mem_cons.mp h with rfl | h2
    · exact goodPath_joinWith (a :: b :: t) (by simp) hx
    · exact pathLoop_good shard (mergeLast (a :: b :: t))
        (mem_mergeLast (a :: b :: t) hx) ps h2
termination_by l => l.length
decreasing_by rw [mergeLast_length]; simp

theorem shardExtract_fst_sub (pcs : List String) :
    ∀ x ∈ (shardExtract pcs).1, x ∈ pcs := by
  intro x hx
  unfold shardExtract at hx
  cases hl : pcs.getLast? with
  | none =>
    simp only [hl] at hx
    exact hx
  | some c =>
    simp only [hl] at hx
    cases hp : pyInt c with
    | none =>
      simp only [hp] at hx
      exact hx
    | some n =>
      simp only [hp] at hx
      exact List.dropLast_subset pcs hx

theorem shardExtract_snd (pcs : List String) :
    (shardExtract pcs).2 = pcs.getLast?.bind pyInt := by
  unfold shardExtract
  cases hl : pcs.getLast? with
  | none => simp [hl]
  | some c =>
    cases hp : pyInt c with
    | none => simp [hl, hp]
    | some n => simp [hl, hp]

theorem shardExtract_of_none (pcs : List String)
    (h : pcs.getLast?.bind pyInt = none) : shardExtract pcs = (pcs, none) := by
  unfold shardExtract
  cases hl : pcs.getLast? with
  | none => rfl
  | some c =>
    rw [hl, Option.some_bind] at h
    simp only [h]

/-! ### The claims -/

/-- C1: the claim says every lookup envelope is either
`{"result": false}` or `{"result": [...]}` with at least one record,
never `{"result": []}`, with an unknown qtype and an exhausted registry
both yielding the literal boolean `false`.  In the code,
`dnsresponse` computes `{'result': list(data or [])}`, which turns the
`False` passed for an unknown qtype — and equally an empty answer
generator — into the EMPTY ARRAY: an unknown qtype (`TXT`) and an
exhausted registry both produce `{"result": []}`, and the literal
`false` is never emitted. -/
theorem C1_envelope_empty_array :
    srvEmpty.dnsapi_lookup "foo.zk.example.com" "TXT" =
      Except.ok { result := DnsResult.records [] } ∧
    srvEmpty.dnsapi_lookup "nope.zk.example.com" "A" =
      Except.ok { result := DnsResult.records [] } ∧
    dnsresponse (LookupData.lit false) =
      Except.ok { result := DnsResult.records [] } :=
  ⟨rfl, rfl, rfl⟩

/-- C2: the claim says a well-formed SRV query emits, for each resolved
instance with a present shard and a matching additional endpoint, one
record with qtype `"SOA"` and content
`"<srv_name> <ttl> IN SRV 0 0 <port> <shard.aname>"`.  In the code,
for an instance with shard `1` and an `http` additional endpoint, the
lookup raises `TypeError` (`'.'.join([instance.shard, a_name])` with an
int shard) instead of emitting anything — and an instance whose shard
is `0` (a present shard) is skipped by `if not instance.shard`, so no
record is emitted for it either. -/
theorem C2_srv_lookup_raises :
    srvSh1.srv_lookup "_http._tcp.job.zk.example.com" =
      Except.error PyErr.typeError ∧
    srvSh0.srv_lookup "_http._tcp.job.zk.example.com" = Except.ok [] :=
  ⟨rfl, rfl⟩

/-- C3 (counterexample): with two shard-0 instances registered under
`job`, resolving `0.job.zk.example.com` returns only the FIRST
matching instance, not the two-element subset of all instances whose
shard is 0. -/
theorem C3_not_subset :
    srvAB.resolve_hostname "0.job.zk.example.com" = [instA] ∧
    (srvAB.zkclient "job").filter (fun i => i.shard == some 0) =
      [instA, instB] ∧
    srvAB.resolve_hostname "0.job.zk.example.com" ≠
      (srvAB.zkclient "job").filter (fun i => i.shard == some 0) := by
  refine ⟨rfl, rfl, ?_⟩
  decide

/-- C3 (amended): when the registry set at a sharded candidate is
non-empty, resolution returns a singleton holding the FIRST instance
whose shard equals the candidate's shard; if no instance matches, the
walk continues with the remaining candidates. -/
theorem C3_first_shard_match (srv : ZknsServer) (p : String) (sh : Int)
    (rest : List (String × Option Int)) (h : srv.zkclient p ≠ []) :
    resolveGo srv ((p, some sh) :: rest) =
      match (srv.zkclient p).find? (fun i => i.shard == some sh) with
      | some inst => [inst]
      | none => resolveGo srv rest := by
  have hemp : (srv.zkclient p).isEmpty = false := by
    simpa using h
  simp [resolveGo, hemp]

/-- Witness for C3 (amended), at the two-instance fixture. -/
theorem C3_first_shard_match_wit :
    resolveGo srvAB [("job", some 0)] = [instA] := by
  have h := C3_first_shard_match srvAB "job" 0 [] (by decide)
  rw [h]
  rfl

/-- C4 (counterexample): the claim says SRV lookup is total and never
raises, with names having fewer than two dots surfaced as
`{"result": false}`.  In the code, `_service, _proto, a_name =
qname.lower().split('.', 2)` raises `ValueError` for the two-label-free
name `ab`, surfacing as a server error rather than any well-formed
envelope. -/
theorem C4_short_name_raises :
    srvEmpty.dnsapi_lookup "ab" "SRV" = Except.error PyErr.valueError ∧
    srvEmpty.srv_lookup "ab" = Except.error PyErr.valueError :=
  ⟨rfl, rfl⟩

/-- C4 (amended): when the lowercased name does split into three parts
and the `_service`/`_proto` shape check fails, SRV lookup emits no
records and does not raise. -/
theorem C4_three_part_no_raise (srv : ZknsServer) (qname s p a : String)
    (hsplit : pySplit2Dot (pyLower qname) = [s, p, a])
    (hbad : (startsUnderscore s && (p == "_tcp" || p == "_udp")) = false) :
    srv.srv_lookup qname = Except.ok [] := by
  simp [ZknsServer.srv_lookup, hsplit, hbad]

/-- Witness for C4 (amended): a three-part name whose service label
lacks the leading underscore. -/
theorem C4_three_part_no_raise_wit :
    srvEmpty.srv_lookup "http._tcp.job.zk.example.com" = Except.ok [] :=
  C4_three_part_no_raise srvEmpty "http._tcp.job.zk.example.com" "http"
    "_tcp" "job.zk.example.com" rfl rfl

/-- C5: the path constructor applied to
`0.job.foo.bar.bas.buz.basedomain.example.com` with base domain
`basedomain.example.com` yields exactly the five candidates of the
worked example, in order. -/
theorem C5_worked_example :
    construct_paths "0.job.foo.bar.bas.buz.basedomain.example.com"
        "basedomain.example.com" =
      [("buz/bas/bar/foo/job", some 0), ("buz/bas/bar/job.foo", some 0),
       ("buz/bas/job.foo.bar", some 0), ("buz/job.foo.bar.bas", some 0),
       ("job.foo.bar.bas.buz", some 0)] := rfl

/-- C6 (counterexample): the claim says that whenever the stripped
hostname does not end with the basedomain, candidates are computed from
the ENTIRE stripped hostname (`qrec := hostname`).  In the code,
`rpartition` keys on the LAST occurrence of `basedomain` anywhere: when
`basedomain` does not occur at all, `qrec` is `""` (the whole hostname
lands in `rpartition`'s third slot) and the only candidate is
`("", none)`; when it occurs as an interior substring, only the prefix
before that occurrence is used. -/
theorem C6_not_whole_hostname :
    construct_paths "job.example.net" "zk.example.com" = [("", none)] ∧
    construct_paths "job.example.net" "zk.example.com" ≠
      construct_paths "job.example.net" "" ∧
    construct_paths "a.zk.example.com.b" "zk.example.com" = [("a", none)] ∧
    construct_paths "a.zk.example.com.b" "zk.example.com" ≠
      construct_paths "a.zk.example.com.b" "" := by
  refine ⟨rfl, by decide, rfl, by decide⟩

/-- C6 (amended): with a non-empty basedomain, the constructor's
candidates are those of the prefix of the stripped hostname before the
LAST occurrence of the basedomain (Python `rpartition`); in particular,
when the basedomain does not occur in the stripped hostname at all,
`qrec` is empty and the single candidate `("", none)` is produced. -/
theorem C6_qrec_last_occurrence (hostname basedomain : String)
    (hbd : basedomain ≠ "") :
    construct_paths hostname basedomain =
      construct_paths (pyRPartitionFst (pyStripDots hostname) basedomain) "" ∧
    (lastOcc (pyStripDots hostname).data basedomain.data = none →
      construct_paths hostname basedomain = [("", none)]) := by
  have hq : cpQrec hostname basedomain =
      pyRPartitionFst (pyStripDots hostname) basedomain := by
    unfold cpQrec
    rw [if_pos hbd]
  constructor
  · have h2 : cpQrec (pyRPartitionFst (pyStripDots hostname) basedomain) "" =
        pyStripDots (pyRPartitionFst (pyStripDots hostname) basedomain) := by
      unfold cpQrec
      simp
    unfold construct_paths cpComponents
    rw [hq, h2, pyStripDots_idem]
  · intro hno
    have hq0 : cpQrec hostname basedomain = "" := by
      rw [hq]
      unfold pyRPartitionFst
      rw [hno]
    unfold construct_paths cpComponents
    rw [hq0]
    rfl

/-- Witness for C6 (amended): basedomain absent from the hostname. -/
theorem C6_qrec_last_occurrence_wit :
    construct_paths "job.example.net" "zk.example.com" =
      construct_paths
        (pyRPartitionFst (pyStripDots "job.example.net") "zk.example.com") "" ∧
    construct_paths "job.example.net" "zk.example.com" = [("", none)] :=
  ⟨(C6_qrec_last_occurrence "job.example.net" "zk.example.com" (by decide)).1,
   (C6_qrec_last_occurrence "job.example.net" "zk.example.com"
     (by decide)).2 (by decide)⟩

/-- C7 (counterexample): the claim says every emitted path is non-empty
with no empty segments, and that an empty `qrec` (a query for the base
domain itself) produces ZERO candidates.  In the code, a query for the
base domain itself makes `qrec` empty, and the constructor then emits
exactly one candidate whose path is the EMPTY string. -/
theorem C7_empty_qrec_candidate :
    cpQrec "basedomain.example.com" "basedomain.example.com" = "" ∧
    construct_paths "basedomain.example.com" "basedomain.example.com" =
      [("", none)] ∧
    goodPath "" = false :=
  ⟨rfl, rfl, rfl⟩

/-- C7 (amended): provided every component of the (reversed, split)
component list is non-empty and slash-free, every emitted registry path
is non-empty with no leading or trailing `'/'` and no empty segments;
when `qrec` is empty the constructor emits exactly the single candidate
`("", none)`. -/
theorem C7_paths_wellformed (hostname basedomain : String) :
    ((∀ x ∈ cpComponents hostname basedomain, x.data ≠ [] ∧ '/' ∉ x.data) →
      ∀ ps ∈ construct_paths hostname basedomain, goodPath ps.1 = true) ∧
    (cpQrec hostname basedomain = "" →
      construct_paths hostname basedomain = [("", none)]) := by
  constructor
  · intro hcomp ps hps
    unfold construct_paths at hps
    exact pathLoop_good _ _
      (fun x hx => hcomp x (shardExtract_fst_sub _ x hx)) ps hps
  · intro hq
    unfold construct_paths cpComponents
    rw [hq]
    rfl

/-- Witness for C7 (amended): the first candidate of `a.b.x.c` is a
well-formed path. -/
theorem C7_paths_wellformed_wit : goodPath "c/x/b/a" = true :=
  (C7_paths_wellformed "a.b.x.c" "").1 (by decide) ("c/x/b/a", none) (by decide)

/-- C8 (counterexample): the claim says every emitted shard is either
`none` or non-negative, with a component such as `"-1"` leaving the
shard unset and staying in the path.  In the code, Python `int("-1")`
succeeds, so the component IS popped and the emitted shard is the
NEGATIVE integer `-1`. -/
theorem C8_negative_shard :
    construct_paths "-1.job.d" "d" = [("job", some (-1))] ∧
    ¬ (∀ ps ∈ construct_paths "-1.job.d" "d", 0 ≤ ps.2.getD 0) := by
  refine ⟨rfl, ?_⟩
  decide

/-- C8 (amended): the shard of every emitted candidate equals Python
`int(...)` applied to the last component (so signed numerals, including
negative ones, bind the shard); when that parse fails the shard is
`none` and the loop runs on the full component list, the last component
included. -/
theorem C8_shard_from_pyint (hostname basedomain : String) :
    (∀ ps ∈ construct_paths hostname basedomain,
      ps.2 = (cpComponents hostname basedomain).getLast?.bind pyInt) ∧
    ((cpComponents hostname basedomain).getLast?.bind pyInt = none →
      construct_paths hostname basedomain =
        pathLoop none (cpComponents hostname basedomain)) := by
  constructor
  · intro ps hps
    unfold construct_paths at hps
    rw [← shardExtract_snd]
    exact pathLoop_shard _ _ ps hps
  · intro hnone
    unfold construct_paths
    rw [shardExtract_of_none _ hnone]

/-- Witness for C8 (amended): `7.a` binds shard 7; `7foo.a` does not
parse and keeps its last component in the path. -/
theorem C8_shard_from_pyint_wit :
    (some 7 : Option Int) = (cpComponents "7.a" "").getLast?.bind pyInt ∧
    construct_paths "7foo.a" "" = pathLoop none (cpComponents "7foo.a" "") :=
  ⟨(C8_shard_from_pyint "7.a" "").1 ("a", some 7) (by decide),
   (C8_shard_from_pyint "7foo.a" "").2 (by decide)⟩

/-- C9: for every server state and qname, the `ANY` answer is exactly
the concatenation of the A, NS, SOA and SRV lookup outputs, in that
order (an exception from the SRV generator propagates identically on
both sides). -/
theorem C9_any_concat (srv : ZknsServer) (qname : String) :
    srv.dnsapi_lookup qname "ANY" =
      (srv.srv_lookup qname).map (fun v =>
        { result := DnsResult.records (srv.a_lookup qname ++
            srv.ns_lookup qname ++ srv.soa_lookup qname ++ v) }) := by
  cases h : srv.srv_lookup qname with
  | ok v => simp [ZknsServer.dnsapi_lookup, dnsresponse, h, Except.map]
  | error e => simp [ZknsServer.dnsapi_lookup, dnsresponse, h, Except.map]

/-- C10: `__init__` stores the configured domain only dot-stripped and
never lowercased, while both NS and SOA lookups lowercase the query
name before comparing; hence a configured domain containing an
upper-case ASCII letter makes NS and SOA lookups empty for EVERY
query name. -/
theorem C10_uppercase_domain (reg : String → List Instance) (domain : String)
    (ttl : Int) (soa : SOAData)
    (h : ∃ c ∈ domain.data, isUpperAscii c = true) :
    (ZknsServer.init reg domain ttl soa).domain = pyStripDots domain ∧
    ∀ qname,
      (ZknsServer.init reg domain ttl soa).ns_lookup qname = [] ∧
      (ZknsServer.init reg domain ttl soa).soa_lookup qname = [] := by
  obtain ⟨u, humem, huup⟩ := h
  have hnd : ¬ u = '.' := by
    intro he
    rw [he] at huup
    exact absurd huup (by decide)
  have hustrip : u ∈ (pyStripDots domain).data := mem_stripDots_of_mem humem hnd
  have hdom : (ZknsServer.init reg domain ttl soa).domain = pyStripDots domain :=
    rfl
  refine ⟨rfl, fun qname => ⟨?_, ?_⟩⟩
  · unfold ZknsServer.ns_lookup
    rw [hdom]
    have hneg : ¬ (pyStripDots (pyLower qname) = pyStripDots domain) := by
      intro heq
      have hu2 : u ∈ (pyStripDots (pyLower qname)).data := by
        rw [heq]
        exact hustrip
      have hf := no_upper_in_lower_strip qname hu2
      rw [hf] at huup
      cases huup
    rw [if_neg hneg]
  · unfold ZknsServer.soa_lookup
    rw [hdom]
    have hneg : ¬ (pyEndsWith (pyStripDots (pyLower qname))
        (pyStripDots domain) = true) := by
      intro hend
      unfold pyEndsWith at hend
      have heq := eq_of_beq hend
      have hu2 : u ∈ (pyStripDots (pyLower qname)).data :=
        List.mem_of_mem_drop (heq ▸ hustrip)
      have hf := no_upper_in_lower_strip qname hu2
      rw [hf] at huup
      cases huup
    rw [if_neg hneg]

/-- Witness for C10: the upper-cased domain `ZK.example.com` yields no
NS record at its own apex and no SOA record under itself. -/
theorem C10_uppercase_domain_wit :
    (∃ c ∈ ("ZK.example.com" : String).data, isUpperAscii c = true) ∧
    (ZknsServer.init regEmpty "ZK.example.com" 60 soaEx).ns_lookup
      "zk.example.com" = [] ∧
    (ZknsServer.init regEmpty "ZK.example.com" 60 soaEx).soa_lookup
      "foo.zk.example.com" = [] := by
  refine ⟨by decide, ?_, ?_⟩
  · exact ((C10_uppercase_domain regEmpty "ZK.example.com" 60 soaEx
      (by decide)).2 "zk.example.com").1
  · exact ((C10_uppercase_domain regEmpty "ZK.example.com" 60 soaEx
      (by decide)).2 "foo.zk.example.com").2

end Zkns
